import Mathlib

/-!
# Verification of the OBD-Monitor UDP/serial bridge

Shallow embedding of `src/obd_monitor_server.c`: the response framer
(`recv_ecu_reply`), the query sender (`send_ecu_query`), the reply
classifier and the per-iteration gateway loop body of `main`.

Bytes are modelled as `Nat` (the C code reads `unsigned char`).  The serial
input is modelled as the list of chunks returned by successive calls to
`RS232_PollComport`; an exhausted chunk list models the situation where the
`>` sentinel never arrives and the C loop blocks forever, so the framer
returns `none` there.  Observable I/O (serial writes, polls, flushes, log
lines, UDP datagrams) is modelled as an explicit event trace.
-/

namespace OBDMonitor

/-- A line appended to the log file.  `main` formats three kinds of lines
with `sprintf` before calling the external `print_log_entry` collaborator:
`"TXD: %s"` with the query, `"RXD: %s"` with the classified payload, and
`"RXD Unknown ECU Message: %s"` with the raw framed reply. -/
inductive LogMsg where
  | txd (query : List Nat)
  | rxd (payload : List Nat)
  | rxdUnknown (msg : List Nat)
  deriving DecidableEq, Repr

/-- One observable I/O action of the bridge: the five serial-channel
operations used by the code plus log append and UDP send. -/
inductive Event where
  | serialWrite (bytes : List Nat)
  | serialFlushTX
  | serialPoll
  | serialFlushRX
  | logEntry (line : LogMsg)
  | udpSend (bytes : List Nat)
  deriving DecidableEq, Repr

/-- Whether an event is a write of bytes to the serial channel. -/
def isWrite : Event → Bool
  | Event.serialWrite _ => true
  | _ => false

/-- The `for (buf_idx = 0; buf_idx < in_msg_len; buf_idx++)` body of
`recv_ecu_reply` (obd_monitor_server.c lines 114-136): bytes below 32 are
dropped except carriage return (13), which appends `'!'` (33); the byte
`'>'` (62) is appended and sets `interpreter_ready_status`; any other byte
is appended verbatim.  `msg` is the reply buffer accumulated so far and
`ready` the current `interpreter_ready_status`.  Note the loop runs over
the WHOLE chunk even after `ready` becomes true. -/
def processChunk : List Nat → List Nat → Bool → List Nat × Bool
  | [], msg, ready => (msg, ready)
  | b :: rest, msg, ready =>
    if b < 32 then
      if b = 13 then processChunk rest (msg ++ [33]) ready
      else processChunk rest msg ready
    else if b = 62 then processChunk rest (msg ++ [62]) true
    else processChunk rest (msg ++ [b]) ready

/-- The `while (interpreter_ready_status == 0)` loop of `recv_ecu_reply`
(lines 105-142) with its event trace: each iteration polls one chunk and
processes it; when the ready flag is set, `RS232_flushRX` runs and the
accumulated reply buffer is returned.  An exhausted chunk list models a
stream in which `>` never arrives: the C loop blocks forever, rendered
here as `none` (no further events are recorded for the infinite polling). -/
def recvLoop : List (List Nat) → List Nat → Option (List Nat) × List Event
  | [], _ => (none, [])
  | c :: rest, msg =>
    let step := processChunk c msg false
    if step.2 then (some step.1, [Event.serialPoll, Event.serialFlushRX])
    else
      let next := recvLoop rest step.1
      (next.1, Event.serialPoll :: next.2)

/-- `recv_ecu_reply` (lines 98-147): returns the framed reply assembled in
the caller's buffer.  The C function's return value `msg_idx` is the
length of this list. -/
def recv_ecu_reply (chunks : List (List Nat)) : Option (List Nat) :=
  (recvLoop chunks []).1

/-- The serial events performed by one call of `recv_ecu_reply`. -/
def recv_trace (chunks : List (List Nat)) : List Event :=
  (recvLoop chunks []).2

/-- `send_ecu_query` (lines 73-96), parametric in the buffer constant
`BUFFER_MAX_LEN` (the header defining it is not part of the sources):
rejects a query of length `< 1` or `> cap` with result 0 and no serial
action; otherwise writes the query bytes, flushes TX and returns the
length. -/
def send_ecu_query (cap : Nat) (q : List Nat) : Nat × List Event :=
  if q.length < 1 ∨ cap < q.length then (0, [])
  else (q.length, [Event.serialWrite q, Event.serialFlushTX])

/-- Modelled from the spec: `replacechar` lives in a utility file that is
not among the sources; per the spec it replaces every occurrence of one
character by another ("replace every `!` delimiter with a literal
space"). -/
def replacechar (s : List Nat) (orig rep : Nat) : List Nat :=
  s.map fun b => if b = orig then rep else b

/-- The token sequence produced by repeated `strtok(·, "!")` in the `'0'`
branch of `main`: maximal runs of non-`'!'` bytes, with empty runs
skipped (ISO C `strtok` never returns an empty token). -/
def splitTokens (msg : List Nat) : List (List Nat) :=
  (msg.splitOn 33).filter fun t => t ≠ []

/-- The reply-classification branch of `main` (lines 305-339), applied to
a framed reply of positive length `n`:
* first byte `'A'` (65): replace `'!'` (33) by `' '` (32) in place, log
  the result and send all `n` bytes of it to the client;
* first byte `'0'` (48): tokenize on `'!'`; when a second token exists,
  log it and send it; otherwise do nothing at all;
* any other first byte: log the reply as unknown, send nothing. -/
def classify (msg : List Nat) : List Event :=
  if msg.head? = some 65 then
    let rep := replacechar msg 33 32
    [Event.logEntry (LogMsg.rxd rep), Event.udpSend rep]
  else if msg.head? = some 48 then
    match splitTokens msg with
    | _ :: t2 :: _ => [Event.logEntry (LogMsg.rxd t2), Event.udpSend t2]
    | _ => []
  else [Event.logEntry (LogMsg.rxdUnknown msg)]

/-- The `if (n > 0)` reply-processing guard of `main` (lines 298-340)
applied to the framer's outcome. -/
def replyEvents (reply : Option (List Nat)) : List Event :=
  match reply with
  | some msg => if 0 < msg.length then classify msg else []
  | none => []

/-- One iteration of the gateway loop of `main` (lines 273-343), after the
datagram `q` has been received: send the query (validated in
`send_ecu_query`), log `TXD` on success, then UNCONDITIONALLY call
`recv_ecu_reply`, then classify a positive-length reply.  Returns the
event trace of the iteration. -/
def gateway_iteration (cap : Nat) (q : List Nat) (chunks : List (List Nat)) :
    List Event :=
  let s := send_ecu_query cap q
  let txLog := if 0 < s.1 then [Event.logEntry (LogMsg.txd q)] else []
  let r := recvLoop chunks []
  s.2 ++ txLog ++ r.2 ++ replyEvents r.1

/-- Spec-level view of one chunk of framing: drop bytes `< 32` except
carriage return (13), which becomes `'!'` (33); keep everything else. -/
def chunkOut (c : List Nat) : List Nat :=
  c.filterMap fun b => if b < 32 then (if b = 13 then some 33 else none) else some b

/-- Whether a chunk contains the ready sentinel `'>'` (62). -/
def chunkReady (c : List Nat) : Bool :=
  c.any fun b => b == 62

/-! ## Sanity checks on concrete inputs -/

example : recv_ecu_reply [[52, 49, 13, 10, 62]] = some [52, 49, 33, 62] := by
  decide

example : recv_ecu_reply [[62, 65]] = some [62, 65] := by decide

example : recv_ecu_reply [[65, 66], [67]] = none := by decide

example :
    splitTokens [48, 49, 48, 48, 33, 52, 49, 33] = [[48, 49, 48, 48], [52, 49]] := by
  decide

example :
    classify [65, 84, 33, 86] =
      [Event.logEntry (LogMsg.rxd [65, 84, 32, 86]),
       Event.udpSend [65, 84, 32, 86]] := by
  decide

example :
    gateway_iteration 256 [] [[65, 62]] =
      [Event.serialPoll, Event.serialFlushRX,
       Event.logEntry (LogMsg.rxd [65, 62]), Event.udpSend [65, 62]] := by
  decide

/-! ## Characterization of the framing loop -/

theorem processChunk_eq (c : List Nat) :
    ∀ msg ready,
      processChunk c msg ready = (msg ++ chunkOut c, ready || chunkReady c) := by
  induction c with
  | nil => intro msg ready; simp [processChunk, chunkOut, chunkReady]
  | cons b rest ih =>
    intro msg ready
    by_cases h32 : b < 32
    · by_cases h13 : b = 13
      · subst h13
        simp [processChunk, chunkOut, chunkReady, ih]
      · have hb : (b == 62) = false := beq_eq_false_iff_ne.mpr (by omega)
        simp [processChunk, chunkOut, chunkReady, h32, h13, hb, ih]
    · by_cases h62 : b = 62
      · subst h62
        simp [processChunk, chunkOut, chunkReady, h32, ih]
      · have hb : (b == 62) = false := beq_eq_false_iff_ne.mpr h62
        simp [processChunk, chunkOut, chunkReady, h32, h62, hb, ih]

theorem chunkReady_iff {c : List Nat} : chunkReady c = true ↔ 62 ∈ c := by
  simp [chunkReady, List.any_eq_true]

theorem mem62_chunkOut {c : List Nat} (h : 62 ∈ c) : 62 ∈ chunkOut c := by
  simp only [chunkOut, List.mem_filterMap]
  refine ⟨62, h, ?_⟩
  norm_num

theorem chunkOut_ge32 {c : List Nat} {b : Nat} (h : b ∈ chunkOut c) : 32 ≤ b := by
  simp only [chunkOut, List.mem_filterMap] at h
  obtain ⟨a, _, ha⟩ := h
  by_cases h32 : a < 32
  · by_cases h13 : a = 13
    · subst h13
      simp at ha
      omega
    · simp [h32, h13] at ha
  · simp [h32] at ha
    omega

theorem recvLoop_some_mem62 (chunks : List (List Nat)) :
    ∀ msg r, (recvLoop chunks msg).1 = some r → 62 ∈ r := by
  induction chunks with
  | nil => intro msg r h; simp [recvLoop] at h
  | cons c rest ih =>
    intro msg r h
    cases hcr : chunkReady c
    · simp only [recvLoop, processChunk_eq, Bool.false_or, hcr, if_neg] at h
      exact ih _ r h
    · simp only [recvLoop, processChunk_eq, Bool.false_or, hcr, if_pos] at h
      rw [← Option.some_inj.mp h]
      exact List.mem_append_right _ (mem62_chunkOut (chunkReady_iff.mp hcr))

theorem recvLoop_isSome_iff (chunks : List (List Nat)) :
    ∀ msg, ((recvLoop chunks msg).1.isSome = true) ↔ ∃ c ∈ chunks, 62 ∈ c := by
  induction chunks with
  | nil => intro msg; simp [recvLoop]
  | cons c rest ih =>
    intro msg
    cases hcr : chunkReady c
    · have hc : ¬ 62 ∈ c := by
        intro hm
        rw [chunkReady_iff.mpr hm] at hcr
        exact absurd hcr (by decide)
      simp only [recvLoop, processChunk_eq, Bool.false_or, hcr, Bool.false_eq_true,
        if_false, ih, List.mem_cons]
      constructor
      · rintro ⟨x, hx, h62⟩
        exact ⟨x, Or.inr hx, h62⟩
      · rintro ⟨x, hx | hx, h62⟩
        · exact absurd (hx ▸ h62) hc
        · exact ⟨x, hx, h62⟩
    · simp only [recvLoop, processChunk_eq, Bool.false_or, hcr, if_true]
      simp only [Option.isSome_some, true_iff]
      exact ⟨c, List.mem_cons_self c rest, chunkReady_iff.mp hcr⟩

theorem recvLoop_stop (pre : List (List Nat)) :
    ∀ (c : List Nat) post msg, (∀ x ∈ pre, ¬ 62 ∈ x) → 62 ∈ c →
      recvLoop (pre ++ c :: post) msg = recvLoop (pre ++ [c]) msg := by
  induction pre with
  | nil =>
    intro c post msg _ hc
    have hcr : chunkReady c = true := chunkReady_iff.mpr hc
    simp [recvLoop, processChunk_eq, hcr]
  | cons x pre ih =>
    intro c post msg hpre hc
    have hx : chunkReady x = false := by
      rw [Bool.eq_false_iff]
      intro h
      exact hpre x (List.mem_cons_self x pre) (chunkReady_iff.mp h)
    simp only [List.cons_append, recvLoop, processChunk_eq, Bool.false_or, hx,
      Bool.false_eq_true, if_false, List.append_eq]
    rw [ih c post _ (fun y hy => hpre y (List.mem_cons_of_mem _ hy)) hc]

theorem recvLoop_some_ge32 (chunks : List (List Nat)) :
    ∀ msg r, (recvLoop chunks msg).1 = some r →
      ∀ b ∈ r, b ∈ msg ∨ 32 ≤ b := by
  induction chunks with
  | nil => intro msg r h; simp [recvLoop] at h
  | cons c rest ih =>
    intro msg r h b hb
    cases hcr : chunkReady c
    · simp only [recvLoop, processChunk_eq, Bool.false_or, hcr, Bool.false_eq_true,
        if_false] at h
      rcases ih _ r h b hb with hm | hge
      · rcases List.mem_append.mp hm with hm | hm
        · exact Or.inl hm
        · exact Or.inr (chunkOut_ge32 hm)
      · exact Or.inr hge
    · simp only [recvLoop, processChunk_eq, Bool.false_or, hcr, if_true] at h
      rw [← Option.some_inj.mp h] at hb
      rcases List.mem_append.mp hb with hm | hm
      · exact Or.inl hm
      · exact Or.inr (chunkOut_ge32 hm)

theorem recvLoop_trace_mem (chunks : List (List Nat)) :
    ∀ msg e, e ∈ (recvLoop chunks msg).2 →
      e = Event.serialPoll ∨ e = Event.serialFlushRX := by
  induction chunks with
  | nil => intro msg e h; simp [recvLoop] at h
  | cons c rest ih =>
    intro msg e h
    cases hcr : chunkReady c
    · simp only [recvLoop, processChunk_eq, Bool.false_or, hcr, Bool.false_eq_true,
        if_false, List.mem_cons] at h
      rcases h with h | h
      · exact Or.inl h
      · exact ih _ e h
    · simp only [recvLoop, processChunk_eq, Bool.false_or, hcr, if_true] at h
      simpa using h

theorem classify_mem (msg : List Nat) :
    ∀ e ∈ classify msg,
      (∃ l, e = Event.logEntry l) ∨ (∃ bs, e = Event.udpSend bs) := by
  intro e he
  by_cases h1 : msg.head? = some 65
  · simp [classify, h1] at he
    rcases he with he | he
    · exact Or.inl ⟨_, he⟩
    · exact Or.inr ⟨_, he⟩
  · by_cases h2 : msg.head? = some 48
    · rcases hs : splitTokens msg with _ | ⟨t1, ts⟩
      · simp [classify, h1, h2, hs] at he
      · rcases ts with _ | ⟨t2, rest⟩
        · simp [classify, h1, h2, hs] at he
        · simp [classify, h1, h2, hs] at he
          rcases he with he | he
          · exact Or.inl ⟨_, he⟩
          · exact Or.inr ⟨_, he⟩
    · simp [classify, h1, h2] at he
      exact Or.inl ⟨_, he⟩

theorem replyEvents_mem (r : Option (List Nat)) :
    ∀ e ∈ replyEvents r,
      (∃ l, e = Event.logEntry l) ∨ (∃ bs, e = Event.udpSend bs) := by
  intro e he
  match r with
  | none => simp [replyEvents] at he
  | some msg =>
    simp only [replyEvents] at he
    by_cases hl : 0 < msg.length
    · exact classify_mem msg e (by simpa [hl] using he)
    · simp [hl] at he

theorem recv_filter_isWrite (chunks : List (List Nat)) (msg : List Nat) :
    ((recvLoop chunks msg).2.filter isWrite) = [] := by
  rw [List.filter_eq_nil_iff]
  intro e he
  rcases recvLoop_trace_mem chunks msg e he with h | h <;> subst h <;> simp [isWrite]

theorem replyEvents_filter_isWrite (r : Option (List Nat)) :
    ((replyEvents r).filter isWrite) = [] := by
  rw [List.filter_eq_nil_iff]
  intro e he
  rcases replyEvents_mem r e he with ⟨l, h⟩ | ⟨bs, h⟩ <;> subst h <;> simp [isWrite]

theorem send_valid {cap : Nat} {q : List Nat} (h1 : 1 ≤ q.length)
    (h2 : q.length ≤ cap) :
    send_ecu_query cap q = (q.length, [Event.serialWrite q, Event.serialFlushTX]) := by
  unfold send_ecu_query
  rw [if_neg (by omega)]

theorem send_invalid {cap : Nat} {q : List Nat} (h : q.length = 0 ∨ cap < q.length) :
    send_ecu_query cap q = (0, []) := by
  unfold send_ecu_query
  rw [if_pos (by omega)]

theorem chunkOut_replicate_62 (n : Nat) :
    chunkOut (List.replicate n 62) = List.replicate n 62 := by
  induction n with
  | zero => rfl
  | succ n ih =>
    rw [List.replicate_succ]
    have hstep : chunkOut (62 :: List.replicate n 62) =
        62 :: chunkOut (List.replicate n 62) := by
      simp [chunkOut]
    rw [hstep, ih, ← List.replicate_succ]

/-! ## The claims -/

/-- Claim C1, counterexample: on the single polled chunk `[>, A]` the
framer does NOT stop right after the `>` — the trailing `A` (65), which
arrives after the `>` in the stream, still appears in the framed reply,
because the per-chunk `for` loop keeps running after the ready flag is
set. -/
theorem obd_c1_counterexample :
    recv_ecu_reply [[62, 65]] ≠ some [62] ∧
    recv_ecu_reply [[62, 65]] = some [62, 65] := by decide

/-- Claim C1 as amended: receipt of `>` is the only terminal condition and
the `>` itself is appended; no byte of any chunk polled after the chunk
holding the first `>` appears in the reply — but bytes following the `>`
inside that same chunk are still processed and may appear. -/
theorem obd_c1_amended :
    (∀ chunks r, recv_ecu_reply chunks = some r → 62 ∈ r) ∧
    (∀ chunks, ((recv_ecu_reply chunks).isSome = true) ↔ ∃ c ∈ chunks, 62 ∈ c) ∧
    (∀ pre c post, (∀ x ∈ pre, ¬ 62 ∈ x) → 62 ∈ c →
      recv_ecu_reply (pre ++ c :: post) = recv_ecu_reply (pre ++ [c])) := by
  refine ⟨?_, ?_, ?_⟩
  · intro chunks r h
    exact recvLoop_some_mem62 chunks [] r h
  · intro chunks
    exact recvLoop_isSome_iff chunks []
  · intro pre c post hpre hc
    unfold recv_ecu_reply
    rw [recvLoop_stop pre c post [] hpre hc]

theorem obd_c1_amended_witness :
    recv_ecu_reply [[65, 13], [62, 70], [99]] =
      recv_ecu_reply [[65, 13], [62, 70]] :=
  obd_c1_amended.2.2 [[65, 13]] [62, 70] [[99]] (by decide) (by decide)

/-- Claim C2, counterexample: on an empty client query the gateway still
polls the serial port, flushes its receive buffer, and — when stale bytes
frame to a reply with leading `A` — even sends a datagram back: `main`
calls `recv_ecu_reply` unconditionally after a failed `send_ecu_query`. -/
theorem obd_c2_counterexample :
    Event.serialPoll ∈ gateway_iteration 256 [] [[65, 62]] ∧
    Event.serialFlushRX ∈ gateway_iteration 256 [] [[65, 62]] ∧
    Event.udpSend [65, 62] ∈ gateway_iteration 256 [] [[65, 62]] := by decide

/-- Claim C2 as amended: on an empty or over-length query the iteration
performs no serial write, no TX flush and no TXD log entry, but it still
runs the full unconditional receive-and-classify path: its trace is
exactly the framer's poll/flush trace followed by the classification
events (which may include a datagram send). -/
theorem obd_c2_amended :
    ∀ cap q chunks, q.length = 0 ∨ cap < q.length →
      gateway_iteration cap q chunks =
        recv_trace chunks ++ replyEvents (recv_ecu_reply chunks) ∧
      (∀ bs, Event.serialWrite bs ∉ gateway_iteration cap q chunks) ∧
      Event.serialFlushTX ∉ gateway_iteration cap q chunks := by
  intro cap q chunks h
  have hsend : send_ecu_query cap q = (0, []) := send_invalid h
  have heq : gateway_iteration cap q chunks =
      recv_trace chunks ++ replyEvents (recv_ecu_reply chunks) := by
    simp [gateway_iteration, hsend, recv_trace, recv_ecu_reply]
  refine ⟨heq, ?_, ?_⟩
  · intro bs hmem
    rw [heq] at hmem
    rcases List.mem_append.mp hmem with hm | hm
    · rcases recvLoop_trace_mem chunks [] _ hm with h' | h' <;> exact Event.noConfusion h'
    · rcases replyEvents_mem _ _ hm with ⟨l, h'⟩ | ⟨b2, h'⟩ <;> exact Event.noConfusion h'
  · intro hmem
    rw [heq] at hmem
    rcases List.mem_append.mp hmem with hm | hm
    · rcases recvLoop_trace_mem chunks [] _ hm with h' | h' <;> exact Event.noConfusion h'
    · rcases replyEvents_mem _ _ hm with ⟨l, h'⟩ | ⟨b2, h'⟩ <;> exact Event.noConfusion h'

theorem obd_c2_amended_witness :
    gateway_iteration 256 [] [[62]] =
      recv_trace [[62]] ++ replyEvents (recv_ecu_reply [[62]]) :=
  (obd_c2_amended 256 [] [[62]] (Or.inl rfl)).1

/-- Claim C3: the framer has NO bound check at all — for every buffer
capacity there is a serial stream making it store bytes at indices at and
beyond that capacity (the reply grows one slot per kept byte, so a reply
longer than `cap` wrote at index `cap` and beyond).  The spec demands
this be guarded against; the code does not guard it. -/
theorem obd_c3_overflow :
    ∀ cap : Nat, ∃ chunks r, recv_ecu_reply chunks = some r ∧ cap < r.length := by
  intro cap
  refine ⟨[List.replicate (cap + 1) 62], List.replicate (cap + 1) 62, ?_, ?_⟩
  · have hcr : chunkReady (List.replicate (cap + 1) 62) = true :=
      chunkReady_iff.mpr (by simp)
    simp [recv_ecu_reply, recvLoop, processChunk_eq, hcr, chunkOut_replicate_62]
  · simp

/-- Claim C4, counterexample: the framed reply `"0ab>"` (reachable from the
serial stream, leading byte `'0'`, no `!` at all hence no second token)
produces NO events whatsoever — in particular no unknown-message log
entry — and the full gateway iteration for it logs only the TXD line. -/
theorem obd_c4_counterexample :
    recv_ecu_reply [[48, 97, 98, 62]] = some [48, 97, 98, 62] ∧
    classify [48, 97, 98, 62] = [] ∧
    gateway_iteration 256 [48, 13] [[48, 97, 98, 62]] =
      [Event.serialWrite [48, 13], Event.serialFlushTX,
       Event.logEntry (LogMsg.txd [48, 13]),
       Event.serialPoll, Event.serialFlushRX] := by decide

/-- Claim C4 as amended: for a framed reply with leading digit `'0'` and
fewer than two `!`-separated tokens, classification yields nothing and
nothing is sent to the client — but no log entry is written either: the
`'0'` branch of `main` silently does nothing when the second `strtok`
returns NULL. -/
theorem obd_c4_amended :
    ∀ msg, msg.head? = some 48 → (splitTokens msg).length ≤ 1 →
      classify msg = [] := by
  intro msg h48 hlen
  rcases hs : splitTokens msg with _ | ⟨t1, ts⟩
  · simp [classify, h48, hs]
  · rcases ts with _ | ⟨t2, rest⟩
    · simp [classify, h48, hs]
    · rw [hs] at hlen
      simp [List.length_cons] at hlen

theorem obd_c4_amended_witness : classify [48, 97, 98, 62] = [] :=
  obd_c4_amended [48, 97, 98, 62] (by decide) (by decide)

/-- Claim C5 (confirmed): a query of length 0 or above the buffer constant
makes `send_ecu_query` return the length-validation failure 0 with an
empty effect trace — no serial write, no flush, nothing. -/
theorem obd_c5 :
    ∀ cap q, q.length = 0 ∨ cap < q.length →
      send_ecu_query cap q = (0, []) := by
  intro cap q h
  exact send_invalid h

theorem obd_c5_witness : send_ecu_query 256 [] = (0, []) :=
  obd_c5 256 [] (Or.inl rfl)

/-- Claim C6 (confirmed): for a query of valid length 1..cap, the gateway
iteration's very first event is the single serial write of the query
bytes (hence it precedes every poll), and that write is the only write in
the whole iteration. -/
theorem obd_c6 :
    ∀ cap q chunks, 1 ≤ q.length → q.length ≤ cap →
      (gateway_iteration cap q chunks).head? = some (Event.serialWrite q) ∧
      (gateway_iteration cap q chunks).filter isWrite = [Event.serialWrite q] := by
  intro cap q chunks h1 h2
  have hsend := send_valid h1 h2
  have htx : (0 : Nat) < q.length := h1
  constructor
  · simp [gateway_iteration, hsend]
  · have hrecv := recv_filter_isWrite chunks []
    have hrep := replyEvents_filter_isWrite (recvLoop chunks []).1
    simp [gateway_iteration, hsend, List.filter_append, hrecv, hrep, isWrite, htx]

theorem obd_c6_witness :
    (gateway_iteration 256 [65] [[62]]).head? = some (Event.serialWrite [65]) ∧
    (gateway_iteration 256 [65] [[62]]).filter isWrite = [Event.serialWrite [65]] :=
  obd_c6 256 [65] [[62]] (by decide) (by decide)

/-- Claim C7, counterexample: the framed reply `"ATRV!12.3V!"` is sent
with BOTH `!` turned into spaces and its length unchanged, i.e. as
`"ATRV 12.3V "` with a trailing space — the claimed reply
`"ATRV 12.3V"` (no trailing space) is not what is sent. -/
theorem obd_c7_counterexample :
    classify [65, 84, 82, 86, 33, 49, 50, 46, 51, 86, 33] =
      [Event.logEntry (LogMsg.rxd [65, 84, 82, 86, 32, 49, 50, 46, 51, 86, 32]),
       Event.udpSend [65, 84, 82, 86, 32, 49, 50, 46, 51, 86, 32]] ∧
    Event.udpSend [65, 84, 82, 86, 32, 49, 50, 46, 51, 86] ∉
      classify [65, 84, 82, 86, 33, 49, 50, 46, 51, 86, 33] := by decide

/-- Claim C7 as amended: for every framed reply with leading byte `A`, the
datagram sent to the client is the whole reply with every `!` (33)
replaced by a space (32) and no other change — in particular the length
is preserved, so `"ATRV!12.3V!"` yields `"ATRV 12.3V "` with a trailing
space, not `"ATRV 12.3V"`. -/
theorem obd_c7_amended :
    ∀ msg, msg.head? = some 65 →
      classify msg =
        [Event.logEntry (LogMsg.rxd (replacechar msg 33 32)),
         Event.udpSend (replacechar msg 33 32)] ∧
      (replacechar msg 33 32).length = msg.length := by
  intro msg h
  constructor
  · simp [classify, h]
  · simp [replacechar]

theorem obd_c7_amended_witness :
    classify [65, 84, 82, 86, 33, 49, 50, 46, 51, 86, 33] =
      [Event.logEntry (LogMsg.rxd [65, 84, 82, 86, 32, 49, 50, 46, 51, 86, 32]),
       Event.udpSend [65, 84, 82, 86, 32, 49, 50, 46, 51, 86, 32]] ∧
    (replacechar [65, 84, 82, 86, 33, 49, 50, 46, 51, 86, 33] 33 32).length =
      ([65, 84, 82, 86, 33, 49, 50, 46, 51, 86, 33] : List Nat).length :=
  obd_c7_amended [65, 84, 82, 86, 33, 49, 50, 46, 51, 86, 33] (by decide)

/-- Claim C8 (confirmed): for every framed reply with leading digit `'0'`
that splits on `!` into at least two (nonempty, strtok-style) tokens, the
datagram sent to the client is exactly the second token, and it is also
what gets logged. -/
theorem obd_c8 :
    ∀ msg t1 t2 rest, msg.head? = some 48 →
      splitTokens msg = t1 :: t2 :: rest →
      classify msg = [Event.logEntry (LogMsg.rxd t2), Event.udpSend t2] := by
  intro msg t1 t2 rest h48 hs
  simp [classify, h48, hs]

theorem obd_c8_witness :
    classify [48, 49, 48, 48, 33, 52, 49, 32, 48, 48, 32, 66, 69, 32, 51, 69, 32, 65, 49, 33] =
      [Event.logEntry (LogMsg.rxd [52, 49, 32, 48, 48, 32, 66, 69, 32, 51, 69, 32, 65, 49]),
       Event.udpSend [52, 49, 32, 48, 48, 32, 66, 69, 32, 51, 69, 32, 65, 49]] :=
  obd_c8 _ [48, 49, 48, 48] [52, 49, 32, 48, 48, 32, 66, 69, 32, 51, 69, 32, 65, 49] []
    (by decide) (by decide)

/-- Claim C9 (confirmed): every byte of a framed reply is at least 32, and
per polled chunk the framer acts exactly as the spec's byte rule: bytes
below 32 are dropped except carriage return (13) which becomes `!` (33),
all other bytes are kept verbatim, and the ready flag is set exactly when
the chunk contains `>` (62). -/
theorem obd_c9 :
    (∀ chunks r, recv_ecu_reply chunks = some r → ∀ b ∈ r, 32 ≤ b) ∧
    (∀ c msg ready, processChunk c msg ready =
      (msg ++ c.filterMap
          (fun b => if b < 32 then (if b = 13 then some 33 else none) else some b),
        ready || c.any (fun b => b == 62))) := by
  constructor
  · intro chunks r h b hb
    rcases recvLoop_some_ge32 chunks [] r h b hb with hm | hge
    · simp at hm
    · exact hge
  · intro c msg ready
    exact processChunk_eq c msg ready

theorem obd_c9_witness : 32 ≤ 33 :=
  obd_c9.1 [[13, 62]] [33, 62] (by decide) 33 (by decide)

/-- Claim C10 (confirmed): whenever the framer returns, the reply it
stored has length at least 1 (termination requires appending the `>`
sentinel), its return value is precisely that stored byte sequence, and
the gateway iteration therefore always runs the reply-processing branch:
its trace ends with the classification events of the reply. -/
theorem obd_c10 :
    ∀ cap q chunks r, recv_ecu_reply chunks = some r →
      1 ≤ r.length ∧
      gateway_iteration cap q chunks =
        (send_ecu_query cap q).2 ++
          (if 0 < (send_ecu_query cap q).1
            then [Event.logEntry (LogMsg.txd q)] else []) ++
          recv_trace chunks ++ classify r := by
  intro cap q chunks r h
  have h62 : 62 ∈ r := recvLoop_some_mem62 chunks [] r h
  have hlen : 1 ≤ r.length := List.length_pos_of_mem h62
  have h' : (recvLoop chunks []).1 = some r := h
  refine ⟨hlen, ?_⟩
  simp [gateway_iteration, recv_trace, h', replyEvents, hlen]
  intro hr
  subst hr
  simp at hlen

theorem obd_c10_witness :
    1 ≤ ([62] : List Nat).length ∧
    gateway_iteration 256 [65] [[62]] =
      (send_ecu_query 256 [65]).2 ++
        (if 0 < (send_ecu_query 256 [65]).1
          then [Event.logEntry (LogMsg.txd [65])] else []) ++
        recv_trace [[62]] ++ classify [62] :=
  obd_c10 256 [65] [[62]] [62] (by decide)

end OBDMonitor
